import Mathlib

/-!
Shallow embedding of the rooftop solar-panel analysis pipeline of this
repository (`analyze_rooftop.py`, `SolarPanelOptimizer.py`) and proofs about
it.  Python floats are modelled as exact rationals, images and binary masks as
`Grid` (a size-indexed pixel function), OpenCV contours as lists of integer
points.  All statements are about the Lean definitions below, each of which is
translated from the corresponding Python function, whose name it keeps.
-/

namespace SolarRooftop

/-- Python `int(...)` truncation of a rational toward zero. -/
def pyTrunc (q : ℚ) : ℤ := if 0 ≤ q then ⌊q⌋ else -⌊-q⌋

/-- Python `round` to an integer: banker's rounding (round half to even). -/
def roundHalfEven (q : ℚ) : ℤ :=
  if q - ⌊q⌋ < 1/2 then ⌊q⌋
  else if 1/2 < q - ⌊q⌋ then ⌊q⌋ + 1
  else if ⌊q⌋ % 2 = 0 then ⌊q⌋ else ⌊q⌋ + 1

/-- Python `round(x, d)` for a rational `x` and `d ≥ 0` decimal digits. -/
def pyRound (q : ℚ) (d : ℕ) : ℚ := (roundHalfEven (q * 10 ^ d) : ℚ) / 10 ^ d

/-- The configuration dictionary (`DEFAULT_CONFIG` merged with user overrides),
restricted to the numeric fields the analysis reads.  `system_losses` is the
system-loss fraction a configuration carries (`SolarPanelOptimizer.py` reads
it; `analyze_rooftop.py` never does). -/
structure Config where
  latitude : ℚ
  longitude : ℚ
  pixel_to_meter : ℚ
  panel_width_m : ℚ
  panel_height_m : ℚ
  panel_efficiency : ℚ
  panel_power_w : ℚ
  min_building_area : ℚ
  max_building_area : ℚ
  edge_margin_percent : ℚ
  panel_spacing_m : ℚ
  system_losses : ℚ

/-- Return value of `SolarPanelOptimizer._calculate_energy` (analyze_rooftop.py,
lines 450-470): the six fields of the returned dictionary, in source order. -/
structure EnergyEstimate where
  system_capacity_kw : ℚ
  total_panel_area_m2 : ℚ
  estimated_annual_kwh : ℚ
  estimated_monthly_kwh : ℚ
  estimated_daily_kwh : ℚ
  co2_offset_kg_year : ℚ

/-- `SolarPanelOptimizer._calculate_energy` (analyze_rooftop.py, lines 450-470).
The annual energy is `total_area × (2200 − 8·|lat|) × efficiency × 0.86`, the
`0.86` being the literal constant of line 461. -/
def calculate_energy (cfg : Config) (num_panels : ℕ) : EnergyEstimate :=
  let panel_area_m2 := cfg.panel_width_m * cfg.panel_height_m
  let total_area_m2 := (num_panels : ℚ) * panel_area_m2
  let capacity_kw := ((num_panels : ℚ) * cfg.panel_power_w) / 1000
  let base_irradiance := 2200 - |cfg.latitude| * 8
  let annual_kwh := total_area_m2 * base_irradiance * cfg.panel_efficiency * (86/100)
  ⟨pyRound capacity_kw 2, pyRound total_area_m2 2, pyRound annual_kwh 0,
   pyRound (annual_kwh / 12) 0, pyRound (annual_kwh / 365) 1,
   pyRound (annual_kwh * (82/100)) 0⟩

/-- Oriented bounding rectangle summary stored in a rooftop record
(`bounding_rect`): width ≥ height by construction, angle in degrees. -/
structure BoundingRect where
  width : ℚ
  height : ℚ
  angle : ℚ

/-- The fields of a rooftop dictionary read by `_rate_suitability`. -/
structure RoofMetrics where
  area_m2 : ℚ
  bounding_rect : BoundingRect

/-- Area block of `_rate_suitability` (lines 476-483): 0-35 points. -/
def area_points (area : ℚ) : ℕ :=
  if 50 ≤ area then 35 else if 30 ≤ area then 25 else if 20 ≤ area then 15 else 0

/-- Panel-count block of `_rate_suitability` (lines 485-491): 0-35 points. -/
def panel_points (num_panels : ℕ) : ℕ :=
  if 10 ≤ num_panels then 35 else if 5 ≤ num_panels then 25
  else if 2 ≤ num_panels then 15 else 0

/-- Shape block of `_rate_suitability` (lines 493-499): the aspect ratio is
`width / height`, guarded to `1` when the height is not positive. -/
def shape_points (rect : BoundingRect) : ℕ :=
  let aspect_ratio : ℚ := if 0 < rect.height then rect.width / rect.height else 1
  if 8/10 ≤ aspect_ratio ∧ aspect_ratio ≤ 3/2 then 15
  else if 1/2 ≤ aspect_ratio ∧ aspect_ratio ≤ 2 then 10 else 0

/-- Obstacle block of `_rate_suitability` (lines 501-508): 0-15 points. -/
def obstacle_points (obstacle_count : ℕ) : ℕ :=
  if obstacle_count = 0 then 15 else if obstacle_count ≤ 2 then 10
  else if obstacle_count ≤ 5 then 5 else 0

/-- Rating bands of `_rate_suitability` (lines 510-517). -/
def ratingOf (score : ℕ) : String :=
  if 80 ≤ score then "Excellent" else if 60 ≤ score then "Good"
  else if 40 ≤ score then "Fair" else "Poor"

/-- Return value of `_rate_suitability` (lines 519-524). -/
structure Suitability where
  score : ℕ
  rating : String
  max_score : ℕ
  obstacles_found : ℕ

/-- `SolarPanelOptimizer._rate_suitability` (analyze_rooftop.py, lines 472-524). -/
def rate_suitability (roof : RoofMetrics) (num_panels obstacle_count : ℕ) : Suitability :=
  let score := area_points roof.area_m2 + panel_points num_panels +
    shape_points roof.bounding_rect + obstacle_points obstacle_count
  ⟨score, ratingOf score, 100, obstacle_count⟩

/-- An OpenCV contour: a list of integer pixel points `(x, y)`. -/
abbrev Contour := List (ℤ × ℤ)

/-- Axis-aligned bounding box `(x, y, w, h)` as computed by `cv2.boundingRect`
on an integer point set: `x`, `y` are the minima, `w = maxx − minx + 1`,
`h = maxy − miny + 1`.  An empty contour gets the degenerate box `(0,0,0,0)`. -/
structure Rect where
  x : ℤ
  y : ℤ
  w : ℤ
  h : ℤ

def boundingRect (c : Contour) : Rect :=
  match c with
  | [] => ⟨0, 0, 0, 0⟩
  | p :: ps =>
    let x0 := ps.foldl (fun a q => min a q.1) p.1
    let y0 := ps.foldl (fun a q => min a q.2) p.2
    let x1 := ps.foldl (fun a q => max a q.1) p.1
    let y1 := ps.foldl (fun a q => max a q.2) p.2
    ⟨x0, y0, x1 - x0 + 1, y1 - y0 + 1⟩

def Rect.area (b : Rect) : ℤ := b.w * b.h

/-- One filtering step of `_non_max_suppression` (analyze_rooftop.py, lines
169-178): candidate `b` survives the kept contour `a` when the intersection of
their bounding boxes, divided by `b`'s own box area, is at most the overlap
threshold 0.3.  The rational comparison `10·inter ≤ 3·area` is exactly
`inter / area ≤ 0.3`; a zero denominator makes the numpy float comparison
false (nan/inf), hence the explicit `0 < area` conjunct. -/
def survives (a b : Contour) : Bool :=
  let A := boundingRect a
  let B := boundingRect b
  let iw := max 0 (min (A.x + A.w) (B.x + B.w) - max A.x B.x)
  let ih := max 0 (min (A.y + A.h) (B.y + B.h) - max A.y B.y)
  decide (0 < B.area) && decide (10 * (iw * ih) ≤ 3 * B.area)

/-- Descending order on bounding-box area (`np.argsort(areas)[::-1]`).  The
sort is modelled by a deterministic stable sort with this total preorder; the
order of equal-area candidates is unspecified by the source. -/
def areaGE (a b : Contour) : Prop := (boundingRect b).area ≤ (boundingRect a).area

instance : DecidableRel areaGE := fun a b =>
  inferInstanceAs (Decidable ((boundingRect b).area ≤ (boundingRect a).area))

instance : IsTotal Contour areaGE := ⟨fun a b => le_total (boundingRect b).area _⟩

instance : IsTrans Contour areaGE := ⟨fun _ _ _ h1 h2 => le_trans h2 h1⟩

/-- Greedy keep loop of `_non_max_suppression` (lines 161-178): keep the head
(largest remaining area), drop every later candidate that does not survive it,
and recurse on the remainder. -/
def nmsKeep : List Contour → List Contour
  | [] => []
  | a :: rest => a :: nmsKeep (rest.filter (fun b => survives a b))
termination_by l => l.length
decreasing_by
  simp only [List.length_cons]
  exact Nat.lt_succ_of_le (List.length_filter_le _ _)

/-- `RooftopDetector._non_max_suppression` (analyze_rooftop.py, lines 152-180):
sort candidates by bounding-box area descending, then greedily keep. -/
def non_max_suppression (contours : List Contour) : List Contour :=
  nmsKeep (List.insertionSort areaGE contours)

/-- The per-rooftop loop of `analyze_image` (analyze_rooftop.py, lines
654-658), with the per-rooftop analysis abstracted as a fallible function:
each result is appended in order, and an exception raised for one rooftop
propagates, aborting the whole loop. -/
def analyzeLoop {α β ε : Type} (f : α → Except ε β) : List α → Except ε (List β)
  | [] => Except.ok []
  | r :: rs => (f r).bind fun a => (analyzeLoop f rs).map fun l => a :: l

/-- The per-building loop of `SolarPanelOptimizer.batch_analyze_buildings`
(SolarPanelOptimizer.py, lines 530-544): each building's analysis runs inside
`try/except`; a failure is reported and skipped, the loop continues. -/
def batchLoop {α β ε : Type} (f : α → Except ε β) : List α → List β
  | [] => []
  | r :: rs =>
    match f r with
    | Except.ok a => a :: batchLoop f rs
    | Except.error _ => batchLoop f rs

/-- Descending order on the sort key of `batch_analyze_buildings` line 547
(`results.sort(key=..., reverse=True)`, a stable sort). -/
def keyGE {β : Type} (key : β → ℚ) (b1 b2 : β) : Prop := key b2 ≤ key b1

instance {β : Type} (key : β → ℚ) : DecidableRel (keyGE key) := fun b1 b2 =>
  inferInstanceAs (Decidable (key b2 ≤ key b1))

/-- `SolarPanelOptimizer.batch_analyze_buildings` (SolarPanelOptimizer.py,
lines 520-549), abstracted over the per-building analysis `f` and the
annual-energy sort key: run the guarded loop, then sort the successful
results by key descending. -/
def batch_analyze_buildings {α β : Type} {ε : Type} (f : α → Except ε β)
    (key : β → ℚ) (rs : List α) : List β :=
  List.insertionSort (keyGE key) (batchLoop f rs)

/-- A concrete fallible per-rooftop analysis: rooftop `0` raises, every other
rooftop `r` analyzes successfully to the value `r`. -/
def failFn : ℕ → Except Unit ℕ := fun r => if r = 0 then Except.error () else Except.ok r

/-- A grayscale raster (or 0/255 binary mask): `rows × cols` pixels, valued in
0..255, addressed as `val row col`. -/
structure Grid where
  rows : ℕ
  cols : ℕ
  val : ℕ → ℕ → ℕ

/-- `cv2.countNonZero` / `np.sum(mask > 0)`: number of nonzero pixels. -/
def countNonZero (g : Grid) : ℕ :=
  ∑ r ∈ Finset.range g.rows, ∑ c ∈ Finset.range g.cols, if g.val r c ≠ 0 then 1 else 0

/-- Pixel lookup with a default for out-of-bounds coordinates; morphology uses
the OpenCV border convention (border value 255 for erosion — it never
constrains the minimum — and 0 for dilation). -/
def sampleOr (g : Grid) (d : ℕ) (r c : ℤ) : ℕ :=
  if 0 ≤ r ∧ r < (g.rows : ℤ) ∧ 0 ≤ c ∧ c < (g.cols : ℤ) then g.val r.toNat c.toNat else d

/-- Offsets of `cv2.getStructuringElement(cv2.MORPH_ELLIPSE, (3, 3))`: the
3×3 cross. -/
def cross3 : List (ℤ × ℤ) := [(-1, 0), (0, -1), (0, 0), (0, 1), (1, 0)]

/-- Offsets of `cv2.getStructuringElement(cv2.MORPH_ELLIPSE, (5, 5))`: single
center pixels on the first and last row, full rows in between. -/
def ellipse5 : List (ℤ × ℤ) :=
  [(-2, 0),
   (-1, -2), (-1, -1), (-1, 0), (-1, 1), (-1, 2),
   (0, -2), (0, -1), (0, 0), (0, 1), (0, 2),
   (1, -2), (1, -1), (1, 0), (1, 1), (1, 2),
   (2, 0)]

/-- `cv2.erode` with a structuring element given by its offset list (all
kernels used here are symmetric, so kernel reflection is immaterial). -/
def erode (g : Grid) (ker : List (ℤ × ℤ)) : Grid :=
  ⟨g.rows, g.cols, fun r c =>
    ker.foldl (fun acc o => min acc (sampleOr g 255 ((r : ℤ) + o.1) ((c : ℤ) + o.2))) 255⟩

/-- `cv2.dilate` with a structuring element given by its offset list. -/
def dilate (g : Grid) (ker : List (ℤ × ℤ)) : Grid :=
  ⟨g.rows, g.cols, fun r c =>
    ker.foldl (fun acc o => max acc (sampleOr g 0 ((r : ℤ) + o.1) ((c : ℤ) + o.2))) 0⟩

/-- `cv2.morphologyEx(..., cv2.MORPH_OPEN, ker)`: erosion then dilation. -/
def morphOpen (g : Grid) (ker : List (ℤ × ℤ)) : Grid := dilate (erode g ker) ker

/-- `cv2.bitwise_and` of two 0/255 masks. -/
def maskAnd (a b : Grid) : Grid :=
  ⟨a.rows, a.cols, fun r c => if 0 < a.val r c ∧ 0 < b.val r c then 255 else 0⟩

/-- `cv2.bitwise_or` of two 0/255 masks. -/
def maskOr (a b : Grid) : Grid :=
  ⟨a.rows, a.cols, fun r c => if 0 < a.val r c ∨ 0 < b.val r c then 255 else 0⟩

/-- `np.zeros_like`: an all-zero grid. -/
def zeroGrid (rows cols : ℕ) : Grid := ⟨rows, cols, fun _ _ => 0⟩

/-- `gray[roof_mask > 0]` (analyze_rooftop.py, line 262): the list of gray
values of the pixels under the mask, in row-major order. -/
def roofPixelVals (gray mask : Grid) : List ℕ :=
  (List.range gray.rows).flatMap fun r =>
    ((List.range gray.cols).filter fun c => decide (0 < mask.val r c)).map fun c =>
      gray.val r c

/-- `np.mean` of a list of pixel values, as an exact rational. -/
def meanOf (l : List ℕ) : ℚ := (l.map fun u => ((u : ℕ) : ℚ)).sum / l.length

/-- `np.std(...)^2`: the population variance of a list of pixel values.  The
detector's thresholds are phrased below directly in terms of the variance,
avoiding the irrational standard deviation. -/
def varOf (l : List ℕ) : ℚ :=
  (l.map fun u => (((u : ℕ) : ℚ) - meanOf l) ^ 2).sum / l.length

/-- Dark-spot flag of `_detect_obstacles` (lines 269-271): with `σ = √var`,
`cv2.threshold(..., THRESH_BINARY_INV)` marks a pixel iff
`v ≤ max(20, mean − 2σ)`, i.e. `v ≤ 20 ∨ (v ≤ mean ∧ 4·var ≤ (mean − v)²)`
(an exact square-root-free restatement, since `σ ≥ 0`). -/
def isDark (mean var : ℚ) (v : ℕ) : Bool :=
  decide ((v : ℚ) ≤ 20) ||
    (decide ((v : ℚ) ≤ mean) && decide (4 * var ≤ (mean - (v : ℚ)) ^ 2))

/-- Bright-spot flag of `_detect_obstacles` (lines 274-276): with `σ = √var`,
`cv2.threshold(..., THRESH_BINARY)` marks a pixel iff
`v > min(235, mean + 2σ)`, i.e. `235 < v ∨ (mean < v ∧ 4·var < (v − mean)²)`. -/
def isBright (mean var : ℚ) (v : ℕ) : Bool :=
  decide ((235 : ℚ) < (v : ℚ)) ||
    (decide (mean < (v : ℚ)) && decide (4 * var < ((v : ℚ) - mean) ^ 2))

/-- `cv2.bitwise_and(gray, gray, mask=roof_mask)` (line 259). -/
def roof_region (gray mask : Grid) : Grid :=
  ⟨gray.rows, gray.cols, fun r c => if 0 < mask.val r c then gray.val r c else 0⟩

/-- Pixelwise thresholding of a source grid to a 0/255 mask. -/
def threshMask (rows cols : ℕ) (flag : ℕ → Bool) (src : Grid) : Grid :=
  ⟨rows, cols, fun r c => if flag (src.val r c) then 255 else 0⟩

/-- The union (a)∪(b)∪(c) of the three obstacle detections of
`_detect_obstacles` (lines 269-292), before morphological cleanup: dark
spots, bright spots (both masked to the roof) and the internal-feature mask. -/
def obstacles_combined (gray mask internal : Grid) : Grid :=
  maskOr (maskOr
    (maskAnd (threshMask gray.rows gray.cols
      (isDark (meanOf (roofPixelVals gray mask)) (varOf (roofPixelVals gray mask)))
      (roof_region gray mask)) mask)
    (maskAnd (threshMask gray.rows gray.cols
      (isBright (meanOf (roofPixelVals gray mask)) (varOf (roofPixelVals gray mask)))
      (roof_region gray mask)) mask)) internal

/-- `SolarPanelOptimizer._detect_obstacles` (analyze_rooftop.py, lines
245-302).  The third detection method (internal contours of the rooftop mask,
lines 279-288, whose tracing and hierarchy are not re-implemented here) is
abstracted by the `internal` mask argument; it is all-zero whenever the
rooftop mask has no interior holes, and it only ever adds obstacle pixels.
An empty roof selection returns the all-zero mask (line 263); otherwise the
combined detections are opened with the 3×3 element and dilated with the 5×5
element. -/
def detect_obstacles (gray mask internal : Grid) : Grid :=
  if (roofPixelVals gray mask).length = 0 then zeroGrid gray.rows gray.cols
  else dilate (morphOpen (obstacles_combined gray mask internal) cross3) ellipse5

/-- A solar panel as emitted by `_create_panel_geometry` (analyze_rooftop.py,
lines 397-448): id, top-left scan position, pixel dimensions, center, rotation
and physical dimensions.  The four trigonometrically rotated display corners
(lines 417-430) are omitted: they are cosmetic output derived from the same
data and no stated property concerns them. -/
structure PanelG where
  panel_id : ℕ
  px : ℕ
  py : ℕ
  width : ℕ
  height : ℕ
  center_x : ℚ
  center_y : ℚ
  rotation_degrees : ℚ
  width_m : ℚ
  height_m : ℚ

/-- `SolarPanelOptimizer._create_panel_geometry`, restricted to the fields of
`PanelG`. -/
def create_panel_geometry (scale : ℚ) (panel_id x y width height : ℕ)
    (angle : ℚ) : PanelG :=
  ⟨panel_id, x, y, width, height, (x : ℚ) + (width : ℚ) / 2, (y : ℚ) + (height : ℚ) / 2,
   pyRound angle 2, pyRound ((width : ℚ) * scale) 2, pyRound ((height : ℚ) * scale) 2⟩

/-- One step of `cv2.pointPolygonTest` (integer branch) for the directed edge
`v0 → v`: `none` means the query point lies on the polygon boundary (result
0), `some b` tells whether the crossing counter is incremented. -/
def pptEdge (px py : ℤ) (e : (ℤ × ℤ) × (ℤ × ℤ)) : Option Bool :=
  let v0 := e.1
  let v := e.2
  if (v0.2 ≤ py ∧ v.2 ≤ py) ∨ (py < v0.2 ∧ py < v.2) ∨ (v0.1 < px ∧ v.1 < px) then
    if py = v.2 ∧ (px = v.1 ∨ (py = v0.2 ∧
        ((v0.1 ≤ px ∧ px ≤ v.1) ∨ (v.1 ≤ px ∧ px ≤ v0.1)))) then
      none
    else some false
  else
    let dist := (py - v0.2) * (v.1 - v0.1) - (px - v0.1) * (v.2 - v0.2)
    if dist = 0 then none
    else some (decide (0 < if v.2 < v0.2 then -dist else dist))

/-- Crossing-count loop of `cv2.pointPolygonTest`: an on-boundary edge returns
0 immediately; otherwise odd crossings mean inside (+1), even outside (−1). -/
def pptGo (px py : ℤ) : List ((ℤ × ℤ) × (ℤ × ℤ)) → ℕ → ℤ
  | [], counter => if counter % 2 = 0 then -1 else 1
  | e :: es, counter =>
    match pptEdge px py e with
    | none => 0
    | some b => pptGo px py es (if b then counter + 1 else counter)

/-- Rotate a contour right by one: the edge walk starts at the last vertex. -/
def rotR (c : Contour) : Contour :=
  match c.getLast? with
  | none => []
  | some p => p :: c.dropLast

/-- `cv2.pointPolygonTest(contour, (px, py), False)` on integer data: +1
inside, 0 on the boundary, −1 outside. -/
def pointPolygonTest (contour : Contour) (px py : ℤ) : ℤ :=
  match contour with
  | [] => -1
  | _ => pptGo px py ((rotR contour).zip contour) 0

/-- `SolarPanelOptimizer._check_corners_in_contour` (analyze_rooftop.py, lines
378-395): test the four quarter-inset points; at least 3 of 4 must be inside
or on the boundary. -/
def check_corners_in_contour (x y w h : ℕ) (contour : Contour) : Bool :=
  let corners : List (ℕ × ℕ) :=
    [(x + w / 4, y + h / 4), (x + 3 * w / 4, y + h / 4),
     (x + w / 4, y + 3 * h / 4), (x + 3 * w / 4, y + 3 * h / 4)]
  decide (3 ≤ (corners.filter fun p =>
    decide (0 ≤ pointPolygonTest contour (p.1 : ℤ) (p.2 : ℤ))).length)

/-- `np.sum(available[y:y+panel_h, x:x+panel_w] > 0)`: nonzero pixels of the
panel footprint in the working mask (the scan keeps the slice in bounds). -/
def countRegion (g : Grid) (x y w h : ℕ) : ℕ :=
  ∑ r ∈ Finset.range h, ∑ c ∈ Finset.range w, if g.val (y + r) (x + c) ≠ 0 then 1 else 0

/-- `available[y:y+panel_h, x:x+panel_w] = 0` (line 374): zero out a panel
footprint in the working mask. -/
def clearRect (g : Grid) (x y w h : ℕ) : Grid :=
  ⟨g.rows, g.cols, fun r c => if y ≤ r ∧ r < y + h ∧ x ≤ c ∧ c < x + w then 0 else g.val r c⟩

/-- Python `range(0, stop, step)` over naturals (`stop` already truncated at
zero; `ceil(stop / step)` elements, empty for `step = 0`). -/
def pyRange0 (stop step : ℕ) : List ℕ := (List.range ((stop + step - 1) / step)).map (· * step)

/-- The row-major candidate scan of `_place_panels_with_orientation` (lines
349-350): `(y, x)` pairs with strides `step_y`, `step_x`. -/
def scanPositions (rows cols pw ph step_y step_x : ℕ) : List (ℕ × ℕ) :=
  (pyRange0 (rows - ph) step_y).flatMap fun y =>
    (pyRange0 (cols - pw) step_x).map fun x => (y, x)

/-- The local state of one placement pass: the caller's `usable_mask` variable
(never written), the `available` working copy (zeroed under accepted panels),
the accumulated panel list, and the next panel id. -/
structure PlaceState where
  usable : Grid
  avail : Grid
  panels : List PanelG
  next_id : ℕ

/-- Loop body of `_place_panels_with_orientation` (lines 350-374): skip a
zero-size footprint; otherwise accept when coverage exceeds 0.90 (the exact
rational form of `count / (pw·ph) > 0.90` is `9·pw·ph < 10·count`) and the
corner test passes, appending the panel and zeroing its footprint in
`available` only. -/
def placeStep (scale : ℚ) (pw ph : ℕ) (angle : ℚ) (contour : Contour)
    (st : PlaceState) (pos : ℕ × ℕ) : PlaceState :=
  if pw * ph = 0 then st
  else if 9 * (pw * ph) < 10 * countRegion st.avail pos.2 pos.1 pw ph ∧
      check_corners_in_contour pos.2 pos.1 pw ph contour = true then
    ⟨st.usable, clearRect st.avail pos.2 pos.1 pw ph,
     st.panels ++ [create_panel_geometry scale st.next_id pos.2 pos.1 pw ph angle],
     st.next_id + 1⟩
  else st

/-- One full placement pass: `available = usable_mask.copy()` initializes the
working copy, then the row-major scan folds `placeStep` over the candidates. -/
def placeRun (scale : ℚ) (u : Grid) (pw ph sp : ℕ) (angle : ℚ)
    (contour : Contour) : PlaceState :=
  (scanPositions u.rows u.cols pw ph (ph + sp) (pw + sp)).foldl
    (placeStep scale pw ph angle contour) ⟨u, u, [], 1⟩

/-- `int(panel_width_m / pixel_to_meter)` precomputed in the constructor. -/
def panel_width_px (cfg : Config) : ℕ :=
  (pyTrunc (cfg.panel_width_m / cfg.pixel_to_meter)).toNat

/-- `int(panel_height_m / pixel_to_meter)` precomputed in the constructor. -/
def panel_height_px (cfg : Config) : ℕ :=
  (pyTrunc (cfg.panel_height_m / cfg.pixel_to_meter)).toNat

/-- `max(1, int(panel_spacing_m / pixel_to_meter))` (line 340). -/
def spacing_px (cfg : Config) : ℕ :=
  max 1 (pyTrunc (cfg.panel_spacing_m / cfg.pixel_to_meter)).toNat

/-- `SolarPanelOptimizer._place_panels_with_orientation` (analyze_rooftop.py,
lines 333-376): the emitted panel list of one pass. -/
def place_panels_with_orientation (cfg : Config) (u : Grid) (panel_w panel_h : ℕ)
    (roof_angle : ℚ) (roof_contour : Contour) : List PanelG :=
  (placeRun cfg.pixel_to_meter u panel_w panel_h (spacing_px cfg) roof_angle
    roof_contour).panels

/-- `SolarPanelOptimizer._place_panels_optimized` (analyze_rooftop.py, lines
309-331): run the landscape pass (configured width × height) and the portrait
pass (swapped) on the same usable mask; `len(landscape) >= len(portrait)`
keeps landscape, otherwise portrait. -/
def place_panels_optimized (cfg : Config) (u : Grid) (roof_angle : ℚ)
    (roof_contour : Contour) : List PanelG :=
  let panels_landscape := place_panels_with_orientation cfg u (panel_width_px cfg)
    (panel_height_px cfg) roof_angle roof_contour
  let panels_portrait := place_panels_with_orientation cfg u (panel_height_px cfg)
    (panel_width_px cfg) roof_angle roof_contour
  if panels_portrait.length ≤ panels_landscape.length then panels_landscape
  else panels_portrait

/-- The half-open un-rotated footprint of a panel contains pixel `(r, c)`. -/
def inFootprint (p : PanelG) (r c : ℕ) : Prop :=
  p.py ≤ r ∧ r < p.py + p.height ∧ p.px ≤ c ∧ c < p.px + p.width

instance (p : PanelG) (r c : ℕ) : Decidable (inFootprint p r c) := by
  unfold inFootprint
  infer_instance

/-- Two panels have disjoint un-rotated footprints. -/
def disjointPanels (p q : PanelG) : Prop :=
  ∀ r c : ℕ, ¬ (inFootprint p r c ∧ inFootprint q r c)

/-- Pixel `(r, c)` lies inside some accepted panel's footprint. -/
def coveredBy (panels : List PanelG) (r c : ℕ) : Prop :=
  ∃ p ∈ panels, inFootprint p r c

instance (panels : List PanelG) (r c : ℕ) : Decidable (coveredBy panels r c) := by
  unfold coveredBy
  exact List.decidableBEx _ panels

/-- Row-major order on scan positions `(y, x)`. -/
def posLT (a b : ℕ × ℕ) : Prop := a.1 < b.1 ∨ (a.1 = b.1 ∧ a.2 < b.2)

/-- A panel produced by a pass with strides `sx`, `sy`: its dimensions are the
pass's (nonzero) panel dimensions and its position lies on the stride grid. -/
def panelGrid (sx sy pw ph : ℕ) (p : PanelG) : Prop :=
  p.width = pw ∧ p.height = ph ∧ 0 < pw ∧ 0 < ph ∧
    (∃ j : ℕ, p.px = j * sx) ∧ (∃ i : ℕ, p.py = i * sy)

/-- A 7×7 all-usable mask. -/
def gridFull : Grid := ⟨7, 7, fun _ _ => 255⟩

/-- An empty (0×0) usable mask. -/
def gridNone : Grid := ⟨0, 0, fun _ _ => 0⟩

/-- A square roof contour covering the 7×7 mask. -/
def contourSquare : Contour := [(0, 0), (6, 0), (6, 6), (0, 6)]

/-- A 7×7 image of uniform intensity 100. -/
def grayUniform : Grid := ⟨7, 7, fun _ _ => 100⟩

/-- A 7×7 rooftop mask: a filled 3×3 square (rows and columns 2..4), as drawn
by `cv2.drawContours(..., -1, 255, -1)`; it has no interior holes, so the
internal-contour mask is all-zero. -/
def maskSquare : Grid :=
  ⟨7, 7, fun r c => if 2 ≤ r ∧ r ≤ 4 ∧ 2 ≤ c ∧ c ≤ 4 then 255 else 0⟩

/-- A configuration carrying a nontrivial system-loss fraction (one half),
used to exhibit that `_calculate_energy` ignores it. -/
def cfgLoss : Config :=
  ⟨0, 0, 15/100, 1, 1, 1, 300, 500, 50000, 1/10, 1/10, 1/2⟩

/-- A degenerate rooftop whose oriented bounding rectangle has height 0. -/
def roofFlat : RoofMetrics := ⟨0, ⟨5, 0, 0⟩⟩

end SolarRooftop

namespace SolarRooftop

theorem roundHalfEven_intCast (n : ℤ) : roundHalfEven (n : ℚ) = n := by
  unfold roundHalfEven
  rw [Int.floor_intCast]
  norm_num

theorem roundHalfEven_zero : roundHalfEven 0 = 0 := by
  simpa using roundHalfEven_intCast 0

theorem pyRound_zero (d : ℕ) : pyRound 0 d = 0 := by
  unfold pyRound
  rw [zero_mul, roundHalfEven_zero]
  norm_num

theorem pyRound_int (n : ℤ) : pyRound (n : ℚ) 0 = (n : ℚ) := by
  unfold pyRound
  rw [pow_zero, mul_one, roundHalfEven_intCast]
  norm_num

/-- C8: for every configuration, the energy estimate for a panel count of 0
has annual yield 0, and the system capacity, total panel area, monthly yield,
daily yield and CO₂ offset are all 0. -/
theorem calculate_energy_zero (cfg : Config) :
    calculate_energy cfg 0 = ⟨0, 0, 0, 0, 0, 0⟩ := by
  unfold calculate_energy
  norm_num
  simp [pyRound_zero]

/-- C2 counterexample: with a configuration carrying a system-loss fraction of
one half, the annual yield computed by `_calculate_energy` is not
`n × w × h × (2200 − 8·|lat|) × efficiency × (1 − system_loss_fraction)`:
the code multiplies by the fixed constant `0.86` instead. -/
theorem calculate_energy_not_config_loss :
    (calculate_energy cfgLoss 1).estimated_annual_kwh ≠
      (1 : ℚ) * cfgLoss.panel_width_m * cfgLoss.panel_height_m *
        (2200 - 8 * |cfgLoss.latitude|) * cfgLoss.panel_efficiency *
        (1 - cfgLoss.system_losses) := by
  have h : (calculate_energy cfgLoss 1).estimated_annual_kwh =
      pyRound (((1892 : ℤ) : ℚ)) 0 := by
    unfold calculate_energy
    norm_num [cfgLoss]
  rw [h, pyRound_int]
  norm_num [cfgLoss]

/-- C2 (amended): for every configuration and panel count, the annual yield is
the rounding of `n × w × h × (2200 − 8·|lat|) × efficiency × (1 − 0.14)` —
the system-loss fraction is the fixed constant 14%, not the one carried by
the configuration. -/
theorem calculate_energy_annual_formula (cfg : Config) (n : ℕ) :
    (calculate_energy cfg n).estimated_annual_kwh =
      pyRound ((n : ℚ) * cfg.panel_width_m * cfg.panel_height_m *
        (2200 - 8 * |cfg.latitude|) * cfg.panel_efficiency * (1 - 14/100)) 0 := by
  unfold calculate_energy
  ring

theorem rate_suitability_score (roof : RoofMetrics) (num_panels obstacle_count : ℕ) :
    (rate_suitability roof num_panels obstacle_count).score =
      area_points roof.area_m2 + panel_points num_panels +
        shape_points roof.bounding_rect + obstacle_points obstacle_count := rfl

/-- C7: with the rooftop metrics and obstacle count fixed, the suitability
score is monotonically non-decreasing in the panel count. -/
theorem rate_suitability_monotone (roof : RoofMetrics) (obstacle_count : ℕ)
    (n m : ℕ) (h : n ≤ m) :
    (rate_suitability roof n obstacle_count).score ≤
      (rate_suitability roof m obstacle_count).score := by
  have hp : panel_points n ≤ panel_points m := by
    unfold panel_points
    split_ifs <;> omega
  rw [rate_suitability_score, rate_suitability_score]
  omega

/-- C7 witness: the monotonicity theorem applied at panel counts 2 ≤ 5. -/
theorem rate_suitability_monotone_witness :
    (rate_suitability ⟨0, ⟨0, 0, 0⟩⟩ 2 1).score ≤
      (rate_suitability ⟨0, ⟨0, 0, 0⟩⟩ 5 1).score :=
  rate_suitability_monotone ⟨0, ⟨0, 0, 0⟩⟩ 1 2 5 (by decide)

/-- C10: when the rooftop's oriented bounding rectangle has height 0, the
aspect-ratio guard takes the default ratio 1, hence the shape block
contributes its full 15 points and the scorer returns a total score without
any division by zero. -/
theorem rate_suitability_zero_height (roof : RoofMetrics)
    (num_panels obstacle_count : ℕ) (h : roof.bounding_rect.height = 0) :
    shape_points roof.bounding_rect = 15 ∧
    (rate_suitability roof num_panels obstacle_count).score =
      area_points roof.area_m2 + panel_points num_panels + 15 +
        obstacle_points obstacle_count := by
  have hs : shape_points roof.bounding_rect = 15 := by
    unfold shape_points
    rw [h]
    norm_num
  refine ⟨hs, ?_⟩
  rw [rate_suitability_score, hs]

/-- C10 witness: the zero-height theorem applied to a concrete degenerate
rooftop record. -/
theorem rate_suitability_zero_height_witness :
    shape_points roofFlat.bounding_rect = 15 ∧
    (rate_suitability roofFlat 3 1).score =
      area_points roofFlat.area_m2 + panel_points 3 + 15 + obstacle_points 1 :=
  rate_suitability_zero_height roofFlat 3 1 rfl

theorem nmsKeep_aux :
    ∀ (n : ℕ) (l : List Contour), l.length ≤ n →
      List.Sublist (nmsKeep l) l ∧
        (nmsKeep l).Pairwise (fun a b => survives a b = true) := by
  intro n
  induction n with
  | zero =>
    intro l hl
    have hnil : l = [] := List.eq_nil_of_length_eq_zero (Nat.le_zero.mp hl)
    subst hnil
    rw [nmsKeep]
    exact ⟨List.Sublist.refl _, List.Pairwise.nil⟩
  | succ n ih =>
    intro l hl
    cases l with
    | nil =>
      rw [nmsKeep]
      exact ⟨List.Sublist.refl _, List.Pairwise.nil⟩
    | cons a rest =>
      rw [nmsKeep]
      have hlen : (rest.filter (fun b => survives a b)).length ≤ n := by
        have h1 := List.length_filter_le (fun b => survives a b) rest
        simp only [List.length_cons] at hl
        omega
      obtain ⟨hsub, hpw⟩ := ih _ hlen
      constructor
      · exact (hsub.trans (List.filter_sublist rest)).cons₂ a
      · refine List.Pairwise.cons ?_ hpw
        intro b hb
        have hb2 : b ∈ rest.filter (fun b => survives a b) := hsub.subset hb
        simpa using (List.mem_filter.mp hb2).2

theorem nmsKeep_of_pairwise :
    ∀ l : List Contour, l.Pairwise (fun a b => survives a b = true) → nmsKeep l = l := by
  intro l
  induction l with
  | nil => intro _; rw [nmsKeep]
  | cons a rest ih =>
    intro h
    rw [List.pairwise_cons] at h
    rw [nmsKeep, List.filter_eq_self.mpr h.1, ih h.2]

/-- C5: `_non_max_suppression` is idempotent: running it on its own output
returns exactly the same list of kept contours (in particular the same set). -/
theorem non_max_suppression_idempotent (contours : List Contour) :
    non_max_suppression (non_max_suppression contours) = non_max_suppression contours := by
  obtain ⟨hsub, hpw⟩ := nmsKeep_aux (List.insertionSort areaGE contours).length
    (List.insertionSort areaGE contours) le_rfl
  have hsorted : (List.insertionSort areaGE contours).Pairwise areaGE :=
    List.sorted_insertionSort areaGE contours
  have hsorted2 : List.Sorted areaGE (nmsKeep (List.insertionSort areaGE contours)) :=
    hsorted.sublist hsub
  unfold non_max_suppression
  rw [List.Sorted.insertionSort_eq hsorted2]
  exact nmsKeep_of_pairwise _ hpw

theorem batchLoop_eq_filterMap {α β ε : Type} (f : α → Except ε β) :
    ∀ rs : List α, batchLoop f rs = rs.filterMap fun r => (f r).toOption := by
  intro rs
  induction rs with
  | nil => rfl
  | cons r rs ih =>
    cases hf : f r with
    | ok a => simp [batchLoop, hf, List.filterMap_cons, Except.toOption, ih]
    | error e => simp [batchLoop, hf, List.filterMap_cons, Except.toOption, ih]

/-- C3 (amended): `batch_analyze_buildings` catches each building's exception
inside the loop, so its result is exactly the successful analyses of the whole
input list (as a permutation, because the results are then sorted by annual
energy descending); a per-building failure is excluded from the results and
never prevents the remaining buildings from being analyzed.  The per-rooftop
loop of `analyze_image`, in contrast, has no such guard (see the
counterexample). -/
theorem batch_analyze_buildings_excludes_failures {α β ε : Type}
    (f : α → Except ε β) (key : β → ℚ) (rs : List α) :
    List.Perm (batch_analyze_buildings f key rs)
      (rs.filterMap fun r => (f r).toOption) := by
  unfold batch_analyze_buildings
  rw [batchLoop_eq_filterMap]
  exact List.perm_insertionSort _ _

/-- C3 counterexample: in the per-image loop of `analyze_image`, an exception
raised while analyzing the first rooftop propagates and aborts the whole
loop: the result is the error, and the analysis of rooftop `1` — which
succeeds when run (second conjunct) — is not produced.  The guarded batch
loop of `SolarPanelOptimizer.py` still returns it (third conjunct). -/
theorem analyzeLoop_aborts_on_failure :
    analyzeLoop failFn [0, 1] = Except.error () ∧
      failFn 1 = Except.ok 1 ∧ batchLoop failFn [0, 1] = [1] :=
  ⟨rfl, rfl, rfl⟩


theorem foldl_min_ge (f : ℤ × ℤ → ℕ) {t : ℕ} :
    ∀ (l : List (ℤ × ℤ)) (init : ℕ), t ≤ init → (∀ o ∈ l, t ≤ f o) →
      t ≤ l.foldl (fun acc o => min acc (f o)) init := by
  intro l
  induction l with
  | nil => intro init h _; simpa using h
  | cons a l ih =>
    intro init h hall
    rw [List.foldl_cons]
    exact ih _ (le_min h (hall a (List.mem_cons_self a l)))
      fun o ho => hall o (List.mem_cons_of_mem a ho)

theorem foldl_max_init (f : ℤ × ℤ → ℕ) :
    ∀ (l : List (ℤ × ℤ)) (init : ℕ),
      init ≤ l.foldl (fun acc o => max acc (f o)) init := by
  intro l
  induction l with
  | nil => intro init; simp
  | cons a l ih =>
    intro init
    rw [List.foldl_cons]
    exact le_trans (le_max_left _ _) (ih _)

theorem foldl_max_ge (f : ℤ × ℤ → ℕ) {t : ℕ} :
    ∀ (l : List (ℤ × ℤ)) (init : ℕ) (o : ℤ × ℤ), o ∈ l → t ≤ f o →
      t ≤ l.foldl (fun acc o => max acc (f o)) init := by
  intro l
  induction l with
  | nil => intro init o ho _; exact absurd ho (List.not_mem_nil o)
  | cons a l ih =>
    intro init o ho ht
    rw [List.foldl_cons]
    rcases List.mem_cons.mp ho with h | h
    · subst h
      exact le_trans (le_trans ht (le_max_right _ _)) (foldl_max_init f l _)
    · exact ih _ o h ht

theorem sampleOr_cell (g : Grid) (d : ℕ) (r c : ℤ) (r2 c2 : ℕ) (h1 : r = (r2 : ℤ))
    (h2 : c = (c2 : ℤ)) (hr : r2 < g.rows) (hc : c2 < g.cols) :
    sampleOr g d r c = g.val r2 c2 := by
  subst h1 h2
  unfold sampleOr
  rw [if_pos]
  · simp
  · refine ⟨Int.natCast_nonneg r2, ?_, Int.natCast_nonneg c2, ?_⟩ <;> exact_mod_cast ‹_›

theorem countNonZero_pos (g : Grid) (r c : ℕ) (hr : r < g.rows) (hc : c < g.cols)
    (h : g.val r c ≠ 0) : 0 < countNonZero g := by
  unfold countNonZero
  refine Finset.sum_pos' (fun i _ => Nat.zero_le _) ⟨r, Finset.mem_range.mpr hr, ?_⟩
  refine Finset.sum_pos' (fun j _ => Nat.zero_le _) ⟨c, Finset.mem_range.mpr hc, ?_⟩
  simp [h]

theorem sum_map_cast_const {l : List ℕ} {v : ℕ} (h : ∀ u ∈ l, u = v) :
    (l.map fun u => ((u : ℕ) : ℚ)).sum = (l.length : ℚ) * (v : ℚ) := by
  induction l with
  | nil => simp
  | cons a l ih =>
    rw [List.map_cons, List.sum_cons, ih fun u hu => h u (List.mem_cons_of_mem a hu),
      h a (List.mem_cons_self a l), List.length_cons]
    push_cast
    ring

theorem meanOf_const {l : List ℕ} {v : ℕ} (hne : l.length ≠ 0) (h : ∀ u ∈ l, u = v) :
    meanOf l = (v : ℚ) := by
  unfold meanOf
  rw [sum_map_cast_const h, mul_comm, mul_div_assoc, div_self (by exact_mod_cast hne), mul_one]

theorem varOf_const {l : List ℕ} {v : ℕ} (hne : l.length ≠ 0) (h : ∀ u ∈ l, u = v) :
    varOf l = 0 := by
  unfold varOf
  rw [List.sum_eq_zero, zero_div]
  intro x hx
  obtain ⟨u, hu, rfl⟩ := List.mem_map.mp hx
  rw [h u hu, meanOf_const hne h]
  ring

theorem mem_roofPixelVals {gray mask : Grid} {r c : ℕ} (hr : r < gray.rows)
    (hc : c < gray.cols) (hm : 0 < mask.val r c) :
    gray.val r c ∈ roofPixelVals gray mask := by
  unfold roofPixelVals
  refine List.mem_flatMap.mpr ⟨r, List.mem_range.mpr hr, ?_⟩
  exact List.mem_map.mpr ⟨c, List.mem_filter.mpr ⟨List.mem_range.mpr hc, by simpa using hm⟩, rfl⟩

theorem roofPixelVals_uniform {gray mask : Grid} {v : ℕ}
    (huni : ∀ r < gray.rows, ∀ c < gray.cols, 0 < mask.val r c → gray.val r c = v) :
    ∀ u ∈ roofPixelVals gray mask, u = v := by
  intro u hu
  unfold roofPixelVals at hu
  obtain ⟨r, hr, hu2⟩ := List.mem_flatMap.mp hu
  obtain ⟨c, hc, rfl⟩ := List.mem_map.mp hu2
  obtain ⟨hcr, hcm⟩ := List.mem_filter.mp hc
  exact huni r (List.mem_range.mp hr) c (List.mem_range.mp hcr) (by simpa using hcm)

theorem isDark_uniform (v : ℕ) : isDark (v : ℚ) 0 v = true := by
  simp [isDark]

theorem maskOr_val (a b : Grid) (r c : ℕ) :
    (maskOr a b).val r c = if 0 < a.val r c ∨ 0 < b.val r c then 255 else 0 := rfl

theorem maskAnd_val (a b : Grid) (r c : ℕ) :
    (maskAnd a b).val r c = if 0 < a.val r c ∧ 0 < b.val r c then 255 else 0 := rfl

theorem threshMask_val (rows cols : ℕ) (flag : ℕ → Bool) (src : Grid) (r c : ℕ) :
    (threshMask rows cols flag src).val r c = if flag (src.val r c) then 255 else 0 := rfl

theorem roof_region_val (gray mask : Grid) (r c : ℕ) :
    (roof_region gray mask).val r c = if 0 < mask.val r c then gray.val r c else 0 := rfl

theorem erode_val (g : Grid) (ker : List (ℤ × ℤ)) (r c : ℕ) :
    (erode g ker).val r c =
      ker.foldl (fun acc o => min acc (sampleOr g 255 ((r : ℤ) + o.1) ((c : ℤ) + o.2))) 255 :=
  rfl

theorem dilate_val (g : Grid) (ker : List (ℤ × ℤ)) (r c : ℕ) :
    (dilate g ker).val r c =
      ker.foldl (fun acc o => max acc (sampleOr g 0 ((r : ℤ) + o.1) ((c : ℤ) + o.2))) 0 :=
  rfl

theorem obstacles_combined_val (gray mask internal : Grid) (v : ℕ)
    (hmean : meanOf (roofPixelVals gray mask) = (v : ℚ))
    (hvar : varOf (roofPixelVals gray mask) = 0)
    (r c : ℕ) (hmk : 0 < mask.val r c) (hval : gray.val r c = v) :
    (obstacles_combined gray mask internal).val r c = 255 := by
  unfold obstacles_combined
  simp [maskOr_val, maskAnd_val, threshMask_val, roof_region_val, hval, hmean, hvar, hmk,
    isDark_uniform]

theorem sampleOr_ge_of (g : Grid) (d : ℕ) (r c : ℤ) (r2 c2 : ℕ) (h1 : r = (r2 : ℤ))
    (h2 : c = (c2 : ℤ)) (hr : r2 < g.rows) (hc : c2 < g.cols) {t : ℕ}
    (hval : t ≤ g.val r2 c2) : t ≤ sampleOr g d r c := by
  rw [sampleOr_cell g d r c r2 c2 h1 h2 hr hc]
  exact hval

theorem erode_rows (g : Grid) (ker : List (ℤ × ℤ)) : (erode g ker).rows = g.rows := rfl

theorem erode_cols (g : Grid) (ker : List (ℤ × ℤ)) : (erode g ker).cols = g.cols := rfl

theorem dilate_rows (g : Grid) (ker : List (ℤ × ℤ)) : (dilate g ker).rows = g.rows := rfl

theorem dilate_cols (g : Grid) (ker : List (ℤ × ℤ)) : (dilate g ker).cols = g.cols := rfl

theorem morphOpen_rows (g : Grid) (ker : List (ℤ × ℤ)) : (morphOpen g ker).rows = g.rows := rfl

theorem morphOpen_cols (g : Grid) (ker : List (ℤ × ℤ)) : (morphOpen g ker).cols = g.cols := rfl

theorem obstacles_combined_rows (gray mask internal : Grid) :
    (obstacles_combined gray mask internal).rows = gray.rows := rfl

theorem obstacles_combined_cols (gray mask internal : Grid) :
    (obstacles_combined gray mask internal).cols = gray.cols := rfl

theorem erode_cross_ge (g : Grid) (r0 c0 : ℕ) (hr0 : 1 ≤ r0) (hr1 : r0 + 1 < g.rows)
    (hc0 : 1 ≤ c0) (hc1 : c0 + 1 < g.cols)
    (h00 : g.val r0 c0 = 255) (hm0 : g.val (r0 - 1) c0 = 255)
    (hp0 : g.val (r0 + 1) c0 = 255) (h0m : g.val r0 (c0 - 1) = 255)
    (h0p : g.val r0 (c0 + 1) = 255) :
    255 ≤ (erode g cross3).val r0 c0 := by
  rw [erode_val]
  refine foldl_min_ge _ cross3 255 le_rfl ?_
  intro o ho
  simp only [cross3, List.mem_cons, List.not_mem_nil, or_false] at ho
  rcases ho with rfl | rfl | rfl | rfl | rfl
  · exact sampleOr_ge_of g 255 _ _ (r0 - 1) c0 (by push_cast; omega) (by push_cast; omega)
      (by omega) (by omega) hm0.ge
  · exact sampleOr_ge_of g 255 _ _ r0 (c0 - 1) (by push_cast; omega) (by push_cast; omega)
      (by omega) (by omega) h0m.ge
  · exact sampleOr_ge_of g 255 _ _ r0 c0 (by push_cast; omega) (by push_cast; omega)
      (by omega) (by omega) h00.ge
  · exact sampleOr_ge_of g 255 _ _ r0 (c0 + 1) (by push_cast; omega) (by push_cast; omega)
      (by omega) (by omega) h0p.ge
  · exact sampleOr_ge_of g 255 _ _ (r0 + 1) c0 (by push_cast; omega) (by push_cast; omega)
      (by omega) (by omega) hp0.ge

theorem dilate_center_ge (g : Grid) (ker : List (ℤ × ℤ)) (hker : ((0 : ℤ), (0 : ℤ)) ∈ ker)
    (r0 c0 : ℕ) (hr : r0 < g.rows) (hc : c0 < g.cols) {t : ℕ} (hv : t ≤ g.val r0 c0) :
    t ≤ (dilate g ker).val r0 c0 := by
  rw [dilate_val]
  refine foldl_max_ge _ ker 0 ((0 : ℤ), (0 : ℤ)) hker ?_
  exact sampleOr_ge_of g 0 _ _ r0 c0 (by push_cast; omega) (by push_cast; omega) hr hc hv

theorem grid_open_dilate_pos (C : Grid) (r0 c0 : ℕ) (hr0 : 1 ≤ r0) (hr1 : r0 + 1 < C.rows)
    (hc0 : 1 ≤ c0) (hc1 : c0 + 1 < C.cols)
    (h00 : C.val r0 c0 = 255) (hm0 : C.val (r0 - 1) c0 = 255)
    (hp0 : C.val (r0 + 1) c0 = 255) (h0m : C.val r0 (c0 - 1) = 255)
    (h0p : C.val r0 (c0 + 1) = 255) :
    255 ≤ (dilate (morphOpen C cross3) ellipse5).val r0 c0 := by
  have herode : 255 ≤ (erode C cross3).val r0 c0 :=
    erode_cross_ge C r0 c0 hr0 hr1 hc0 hc1 h00 hm0 hp0 h0m h0p
  have hopen : 255 ≤ (morphOpen C cross3).val r0 c0 := by
    unfold morphOpen
    exact dilate_center_ge (erode C cross3) cross3 (by decide) r0 c0
      (by simp only [erode_rows]; omega) (by simp only [erode_cols]; omega) herode
  exact dilate_center_ge (morphOpen C cross3) ellipse5 (by decide) r0 c0
    (by simp only [morphOpen_rows]; omega) (by simp only [morphOpen_cols]; omega) hopen

theorem detect_obstacles_uniform_aux (gray mask internal : Grid) (v : ℕ)
    (huni : ∀ r < gray.rows, ∀ c < gray.cols, 0 < mask.val r c → gray.val r c = v)
    (r0 c0 : ℕ) (hr0 : 1 ≤ r0) (hr1 : r0 + 1 < gray.rows) (hc0 : 1 ≤ c0)
    (hc1 : c0 + 1 < gray.cols)
    (hm : 0 < mask.val r0 c0 ∧ 0 < mask.val (r0 - 1) c0 ∧ 0 < mask.val (r0 + 1) c0 ∧
      0 < mask.val r0 (c0 - 1) ∧ 0 < mask.val r0 (c0 + 1)) :
    0 < countNonZero (detect_obstacles gray mask internal) := by
  have hvmem : gray.val r0 c0 ∈ roofPixelVals gray mask :=
    mem_roofPixelVals (by omega) (by omega) hm.1
  have hlen : (roofPixelVals gray mask).length ≠ 0 := by
    have := List.length_pos.mpr (List.ne_nil_of_mem hvmem)
    omega
  have hall : ∀ u ∈ roofPixelVals gray mask, u = v := roofPixelVals_uniform huni
  have hmean := meanOf_const hlen hall
  have hvar := varOf_const hlen hall
  have hcell : ∀ r c : ℕ, r < gray.rows → c < gray.cols → 0 < mask.val r c →
      (obstacles_combined gray mask internal).val r c = 255 := fun r c hr hc hmk =>
    obstacles_combined_val gray mask internal v hmean hvar r c hmk (huni r hr c hc hmk)
  have h255 : 255 ≤ (dilate (morphOpen (obstacles_combined gray mask internal) cross3)
      ellipse5).val r0 c0 :=
    grid_open_dilate_pos (obstacles_combined gray mask internal) r0 c0 hr0
      (by simp only [obstacles_combined_rows]; omega) hc0
      (by simp only [obstacles_combined_cols]; omega)
      (hcell r0 c0 (by omega) (by omega) hm.1)
      (hcell (r0 - 1) c0 (by omega) (by omega) hm.2.1)
      (hcell (r0 + 1) c0 (by omega) (by omega) hm.2.2.1)
      (hcell r0 (c0 - 1) (by omega) (by omega) hm.2.2.2.1)
      (hcell r0 (c0 + 1) (by omega) (by omega) hm.2.2.2.2)
  unfold detect_obstacles
  rw [if_neg hlen]
  refine countNonZero_pos _ r0 c0 ?_ ?_ ?_
  · simp only [dilate_rows, morphOpen_rows, obstacles_combined_rows]
    omega
  · simp only [dilate_cols, morphOpen_cols, obstacles_combined_cols]
    omega
  · omega

/-- C1 (amended): on a rooftop whose pixels under the mask all have the same
intensity (standard deviation 0), every roof pixel equals the dark threshold
`max(20, mean − 2·std) = max(20, mean)` and the inverse binary threshold marks
pixels `≤` the threshold, so the whole roof is flagged as dark; consequently,
for any roof containing a full 3×3 cross neighbourhood (so the opening does
not erase it), `_detect_obstacles` returns an obstacle mask of positive area —
not zero area. -/
theorem detect_obstacles_uniform_marks_roof (gray mask internal : Grid) (v : ℕ)
    (huni : ∀ r < gray.rows, ∀ c < gray.cols, 0 < mask.val r c → gray.val r c = v)
    (r0 c0 : ℕ) (hr0 : 1 ≤ r0) (hr1 : r0 + 1 < gray.rows) (hc0 : 1 ≤ c0)
    (hc1 : c0 + 1 < gray.cols)
    (hm : 0 < mask.val r0 c0 ∧ 0 < mask.val (r0 - 1) c0 ∧ 0 < mask.val (r0 + 1) c0 ∧
      0 < mask.val r0 (c0 - 1) ∧ 0 < mask.val r0 (c0 + 1)) :
    0 < countNonZero (detect_obstacles gray mask internal) :=
  detect_obstacles_uniform_aux gray mask internal v huni r0 c0 hr0 hr1 hc0 hc1 hm

/-- C1 witness: the amended theorem applied to the concrete 7×7 uniform image
with a 3×3 square rooftop mask, centered at pixel (3,3). -/
theorem detect_obstacles_uniform_marks_roof_witness :
    0 < countNonZero (detect_obstacles grayUniform maskSquare (zeroGrid 7 7)) :=
  detect_obstacles_uniform_marks_roof grayUniform maskSquare (zeroGrid 7 7) 100
    (by decide) 3 3 (by decide) (by decide) (by decide) (by decide)
    ⟨by decide, by decide, by decide, by decide, by decide⟩

/-- C1 counterexample: the 7×7 image is uniform (every pixel under the mask
has intensity 100, first conjunct), yet the obstacle mask returned by
`_detect_obstacles` has positive area — refuting the claimed zero area.  The
internal-contour mask is all-zero, as the square mask has no holes. -/
theorem detect_obstacles_uniform_counterexample :
    (roofPixelVals grayUniform maskSquare).all (fun u => u == 100) = true ∧
      0 < countNonZero (detect_obstacles grayUniform maskSquare (zeroGrid 7 7)) :=
  ⟨by decide,
   detect_obstacles_uniform_aux grayUniform maskSquare (zeroGrid 7 7) 100
     (by decide) 3 3 (by decide) (by decide) (by decide) (by decide)
     ⟨by decide, by decide, by decide, by decide, by decide⟩⟩


theorem placeStep_cases (scale : ℚ) (pw ph : ℕ) (angle : ℚ) (contour : Contour)
    (st : PlaceState) (pos : ℕ × ℕ) :
    placeStep scale pw ph angle contour st pos = st ∨
      (pw * ph ≠ 0 ∧
        placeStep scale pw ph angle contour st pos =
          ⟨st.usable, clearRect st.avail pos.2 pos.1 pw ph,
           st.panels ++ [create_panel_geometry scale st.next_id pos.2 pos.1 pw ph angle],
           st.next_id + 1⟩) := by
  unfold placeStep
  split_ifs with h1 h2
  · exact Or.inl rfl
  · exact Or.inr ⟨h1, rfl⟩
  · exact Or.inl rfl

theorem posLT_ne {a b : ℕ × ℕ} (h : posLT a b) : a ≠ b := by
  rcases h with h | ⟨h1, h2⟩ <;> intro he <;> subst he <;> omega

theorem pyRange0_mem {a stop step : ℕ} (h : a ∈ pyRange0 stop step) : ∃ k : ℕ, a = k * step := by
  obtain ⟨k, _, rfl⟩ := List.mem_map.mp h
  exact ⟨k, rfl⟩

theorem pyRange0_pairwise (stop step : ℕ) : (pyRange0 stop step).Pairwise (· < ·) := by
  unfold pyRange0
  rcases Nat.eq_zero_or_pos step with h | h
  · subst h
    simp [Nat.div_zero]
  · exact (List.pairwise_lt_range _).map _ fun a b hab => (Nat.mul_lt_mul_right h).mpr hab

theorem pairwise_rowMajor (ys xs : List ℕ) (hy : ys.Pairwise (· < ·))
    (hx : xs.Pairwise (· < ·)) :
    (ys.flatMap fun y => xs.map fun x => (y, x)).Pairwise posLT := by
  induction ys with
  | nil => simp
  | cons y ys ih =>
    rw [List.flatMap_cons, List.pairwise_append]
    obtain ⟨hhead, htail⟩ := List.pairwise_cons.mp hy
    refine ⟨?_, ih htail, ?_⟩
    · exact hx.map _ fun a b hab => Or.inr ⟨rfl, hab⟩
    · intro a ha b hb
      obtain ⟨xa, _, rfl⟩ := List.mem_map.mp ha
      obtain ⟨y2, hy2, hb2⟩ := List.mem_flatMap.mp hb
      obtain ⟨xb, _, rfl⟩ := List.mem_map.mp hb2
      exact Or.inl (hhead y2 hy2)

theorem scanPositions_mem {rows cols pw ph sy sx : ℕ} {q : ℕ × ℕ}
    (h : q ∈ scanPositions rows cols pw ph sy sx) :
    (∃ j : ℕ, q.2 = j * sx) ∧ (∃ i : ℕ, q.1 = i * sy) := by
  obtain ⟨y, hy, hq⟩ := List.mem_flatMap.mp h
  obtain ⟨x, hx, rfl⟩ := List.mem_map.mp hq
  exact ⟨pyRange0_mem hx, pyRange0_mem hy⟩

theorem scanPositions_pairwise (rows cols pw ph sy sx : ℕ) :
    (scanPositions rows cols pw ph sy sx).Pairwise posLT :=
  pairwise_rowMajor _ _ (pyRange0_pairwise _ _) (pyRange0_pairwise _ _)

theorem placeFold_inv (scale : ℚ) (pw ph : ℕ) (angle : ℚ) (contour : Contour) (sx sy : ℕ) :
    ∀ (ps : List (ℕ × ℕ)) (st : PlaceState),
      (∀ q ∈ ps, (∃ j : ℕ, q.2 = j * sx) ∧ (∃ i : ℕ, q.1 = i * sy)) →
      ps.Pairwise posLT →
      (∀ p ∈ st.panels, panelGrid sx sy pw ph p) →
      st.panels.Pairwise (fun p q => (p.py, p.px) ≠ (q.py, q.px)) →
      (∀ p ∈ st.panels, ∀ q ∈ ps, posLT (p.py, p.px) q) →
      (∀ p ∈ (ps.foldl (placeStep scale pw ph angle contour) st).panels,
          panelGrid sx sy pw ph p) ∧
        (ps.foldl (placeStep scale pw ph angle contour) st).panels.Pairwise
          (fun p q => (p.py, p.px) ≠ (q.py, q.px)) := by
  intro ps
  induction ps with
  | nil => intro st _ _ hgrid hpair _; exact ⟨hgrid, hpair⟩
  | cons q ps ih =>
    intro st hmul hplt hgrid hpair hprec
    rw [List.foldl_cons]
    obtain ⟨hq, hps⟩ := List.pairwise_cons.mp hplt
    rcases placeStep_cases scale pw ph angle contour st q with heq | ⟨hnz, heq⟩
    · rw [heq]
      refine ih st (fun q2 hq2 => hmul q2 (List.mem_cons_of_mem q hq2)) hps hgrid hpair ?_
      exact fun p hp q2 hq2 => hprec p hp q2 (List.mem_cons_of_mem q hq2)
    · rw [heq]
      set newp := create_panel_geometry scale st.next_id q.2 q.1 pw ph angle with hnewp
      have hnf : newp.px = q.2 ∧ newp.py = q.1 ∧ newp.width = pw ∧ newp.height = ph :=
        ⟨rfl, rfl, rfl, rfl⟩
      refine ih _ (fun q2 hq2 => hmul q2 (List.mem_cons_of_mem q hq2)) hps ?_ ?_ ?_
      · intro p hp
        rcases List.mem_append.mp hp with hp | hp
        · exact hgrid p hp
        · rw [List.mem_singleton.mp hp]
          obtain ⟨hj, hi⟩ := hmul q (List.mem_cons_self q ps)
          have hpw0 : 0 < pw := Nat.pos_of_ne_zero fun h0 => hnz (by rw [h0, Nat.zero_mul])
          have hph0 : 0 < ph := Nat.pos_of_ne_zero fun h0 => hnz (by rw [h0, Nat.mul_zero])
          exact ⟨hnf.2.2.1, hnf.2.2.2, hpw0, hph0,
            ⟨hj.choose, by rw [hnf.1]; exact hj.choose_spec⟩,
            ⟨hi.choose, by rw [hnf.2.1]; exact hi.choose_spec⟩⟩
      · rw [List.pairwise_append]
        refine ⟨hpair, List.pairwise_singleton _ _, ?_⟩
        intro p hp b hb
        rw [List.mem_singleton.mp hb, hnf.2.1, hnf.1]
        exact fun he => posLT_ne (hprec p hp q (List.mem_cons_self q ps))
          (he.trans (Prod.mk.eta))
      · intro p hp q2 hq2
        rcases List.mem_append.mp hp with hp | hp
        · exact hprec p hp q2 (List.mem_cons_of_mem q hq2)
        · rw [List.mem_singleton.mp hp, hnf.2.1, hnf.1, Prod.mk.eta]
          exact hq q2 hq2

theorem panels_disjoint_arith (sx sy pw ph : ℕ) (hsx : pw ≤ sx) (hsy : ph ≤ sy)
    (p q : PanelG) (hp : panelGrid sx sy pw ph p) (hq : panelGrid sx sy pw ph q)
    (hne : (p.py, p.px) ≠ (q.py, q.px)) : disjointPanels p q := by
  obtain ⟨hpw, hph, hpw0, hph0, ⟨jp, hjp⟩, ⟨ipp, hip⟩⟩ := hp
  obtain ⟨hqw, hqh, _, _, ⟨jq, hjq⟩, ⟨iq, hiq⟩⟩ := hq
  intro r c hrc
  obtain ⟨⟨h1, h2, h3, h4⟩, ⟨h5, h6, h7, h8⟩⟩ := hrc
  rw [hph] at h2
  rw [hpw] at h4
  rw [hqh] at h6
  rw [hqw] at h8
  have hsy0 : 0 < sy := by omega
  have hsx0 : 0 < sx := by omega
  rcases Nat.lt_trichotomy ipp iq with h | h | h
  · have : (ipp + 1) * sy ≤ iq * sy := Nat.mul_le_mul_right sy (by omega)
    have : ipp * sy + sy ≤ iq * sy := by
      rw [add_one_mul] at this
      omega
    omega
  · subst h
    have hpy : p.py = q.py := by omega
    have hne2 : p.px ≠ q.px := by
      intro he
      exact hne (by rw [hpy, he])
    rcases Nat.lt_trichotomy jp jq with h | h | h
    · have : (jp + 1) * sx ≤ jq * sx := Nat.mul_le_mul_right sx (by omega)
      have : jp * sx + sx ≤ jq * sx := by
        rw [add_one_mul] at this
        omega
      omega
    · rw [h] at hjp
      omega
    · have : (jq + 1) * sx ≤ jp * sx := Nat.mul_le_mul_right sx (by omega)
      have : jq * sx + sx ≤ jp * sx := by
        rw [add_one_mul] at this
        omega
      omega
  · have : (iq + 1) * sy ≤ ipp * sy := Nat.mul_le_mul_right sy (by omega)
    have : iq * sy + sy ≤ ipp * sy := by
      rw [add_one_mul] at this
      omega
    omega

theorem placeRun_pairwise (scale : ℚ) (u : Grid) (pw ph sp : ℕ) (angle : ℚ)
    (contour : Contour) :
    (placeRun scale u pw ph sp angle contour).panels.Pairwise disjointPanels := by
  obtain ⟨hgrid, hpair⟩ := placeFold_inv scale pw ph angle contour (pw + sp) (ph + sp)
    (scanPositions u.rows u.cols pw ph (ph + sp) (pw + sp)) ⟨u, u, [], 1⟩
    (fun q hq => scanPositions_mem hq) (scanPositions_pairwise _ _ _ _ _ _)
    (by intro p hp; exact absurd hp (List.not_mem_nil p))
    List.Pairwise.nil
    (by intro p hp; exact absurd hp (List.not_mem_nil p))
  exact hpair.imp_of_mem fun ha hb hne =>
    panels_disjoint_arith (pw + sp) (ph + sp) pw ph (Nat.le_add_right pw sp)
      (Nat.le_add_right ph sp) _ _ (hgrid _ ha) (hgrid _ hb) hne

/-- C4: no two panels emitted by one `_place_panels_with_orientation` pass
have overlapping un-rotated footprints, and consequently the accepted result
of `_place_panels_optimized` (one of the two passes) consists of pairwise
disjoint footprints. -/
theorem place_panels_no_overlap (cfg : Config) (u : Grid) (panel_w panel_h : ℕ)
    (roof_angle : ℚ) (roof_contour : Contour) :
    (place_panels_with_orientation cfg u panel_w panel_h roof_angle
        roof_contour).Pairwise disjointPanels ∧
      (place_panels_optimized cfg u roof_angle roof_contour).Pairwise disjointPanels := by
  constructor
  · exact placeRun_pairwise cfg.pixel_to_meter u panel_w panel_h (spacing_px cfg)
      roof_angle roof_contour
  · simp only [place_panels_optimized]
    split_ifs
    · exact placeRun_pairwise cfg.pixel_to_meter u (panel_width_px cfg)
        (panel_height_px cfg) (spacing_px cfg) roof_angle roof_contour
    · exact placeRun_pairwise cfg.pixel_to_meter u (panel_height_px cfg)
        (panel_width_px cfg) (spacing_px cfg) roof_angle roof_contour

theorem placeFold_frame (scale : ℚ) (pw ph : ℕ) (angle : ℚ) (contour : Contour) :
    ∀ (ps : List (ℕ × ℕ)) (st : PlaceState),
      (ps.foldl (placeStep scale pw ph angle contour) st).usable = st.usable ∧
      (∃ l : List PanelG,
        (ps.foldl (placeStep scale pw ph angle contour) st).panels = st.panels ++ l) ∧
      ∀ r c : ℕ, ¬ coveredBy (ps.foldl (placeStep scale pw ph angle contour) st).panels r c →
        (ps.foldl (placeStep scale pw ph angle contour) st).avail.val r c = st.avail.val r c := by
  intro ps
  induction ps with
  | nil =>
    intro st
    exact ⟨rfl, ⟨[], (List.append_nil _).symm⟩, fun r c _ => rfl⟩
  | cons q ps ih =>
    intro st
    rw [List.foldl_cons]
    rcases placeStep_cases scale pw ph angle contour st q with heq | ⟨hnz, heq⟩
    · rw [heq]
      exact ih st
    · rw [heq]
      obtain ⟨hu, ⟨l, hl⟩, hav⟩ := ih ⟨st.usable, clearRect st.avail q.2 q.1 pw ph,
        st.panels ++ [create_panel_geometry scale st.next_id q.2 q.1 pw ph angle],
        st.next_id + 1⟩
      refine ⟨hu, ⟨create_panel_geometry scale st.next_id q.2 q.1 pw ph angle :: l, ?_⟩, ?_⟩
      · rw [hl]
        simp
      · intro r c hnc
        rw [hav r c hnc]
        have hmemp : create_panel_geometry scale st.next_id q.2 q.1 pw ph angle ∈
            (ps.foldl (placeStep scale pw ph angle contour)
              ⟨st.usable, clearRect st.avail q.2 q.1 pw ph,
               st.panels ++ [create_panel_geometry scale st.next_id q.2 q.1 pw ph angle],
               st.next_id + 1⟩).panels := by
          rw [hl]
          exact List.mem_append_left _ (List.mem_append_right _ (List.mem_singleton_self _))
        have hnf : ¬ inFootprint (create_panel_geometry scale st.next_id q.2 q.1 pw ph angle)
            r c := fun hf => hnc ⟨_, hmemp, hf⟩
        show (if q.1 ≤ r ∧ r < q.1 + ph ∧ q.2 ≤ c ∧ c < q.2 + pw then 0
          else st.avail.val r c) = st.avail.val r c
        rw [if_neg]
        intro hcond
        exact hnf ⟨hcond.1, hcond.2.1, hcond.2.2.1, hcond.2.2.2⟩

/-- C9: one placement pass never writes to its input usable mask — the
`usable_mask` variable threaded through the pass is returned unchanged, and
the `available` working copy differs from the input only inside accepted
panel footprints; consequently the swapped-orientation (portrait) pass run
after the landscape pass observes exactly the same usable mask as the
landscape pass did. -/
theorem place_panels_mask_frame (scale : ℚ) (u : Grid) (pw ph sp : ℕ) (angle : ℚ)
    (contour : Contour) :
    (placeRun scale u pw ph sp angle contour).usable = u ∧
    (∀ r c : ℕ, ¬ coveredBy (placeRun scale u pw ph sp angle contour).panels r c →
      (placeRun scale u pw ph sp angle contour).avail.val r c = u.val r c) ∧
    placeRun scale ((placeRun scale u pw ph sp angle contour).usable) ph pw sp angle contour =
      placeRun scale u ph pw sp angle contour := by
  obtain ⟨hu, _, hav⟩ := placeFold_frame scale pw ph angle contour
    (scanPositions u.rows u.cols pw ph (ph + sp) (pw + sp)) ⟨u, u, [], 1⟩
  exact ⟨hu, hav, by rw [show (placeRun scale u pw ph sp angle contour).usable = u from hu]⟩

/-- C9 witness: the frame theorem applied to a concrete full 7×7 mask with
2×2 panels and spacing 1; pixel (6, 6) lies outside every accepted footprint,
so the working mask still holds the original value 255 there. -/
theorem place_panels_mask_frame_witness :
    ¬ coveredBy (placeRun (15/100 : ℚ) gridFull 2 2 1 0 contourSquare).panels 6 6 ∧
      (placeRun (15/100 : ℚ) gridFull 2 2 1 0 contourSquare).avail.val 6 6 = 255 :=
  ⟨by decide,
   (place_panels_mask_frame (15/100 : ℚ) gridFull 2 2 1 0 contourSquare).2.1 6 6 (by decide)⟩

theorem pyRange0_stop_zero (step : ℕ) : pyRange0 0 step = [] := by
  unfold pyRange0
  rcases Nat.eq_zero_or_pos step with h | h
  · subst h
    simp
  · rw [Nat.div_eq_of_lt (by omega)]
    simp

theorem place_rows_zero (cfg : Config) (u : Grid) (panel_w panel_h : ℕ) (roof_angle : ℚ)
    (roof_contour : Contour) (h : u.rows = 0) :
    place_panels_with_orientation cfg u panel_w panel_h roof_angle roof_contour = [] := by
  unfold place_panels_with_orientation placeRun scanPositions
  rw [h]
  rw [Nat.zero_sub, pyRange0_stop_zero]
  rfl

/-- C6: `_place_panels_optimized` returns one of the two orientation passes,
its panel count is the larger of the two passes' counts, and a tie is
resolved in favour of the landscape pass (configured width × height). -/
theorem place_panels_optimized_picks (cfg : Config) (u : Grid) (roof_angle : ℚ)
    (roof_contour : Contour) :
    (place_panels_optimized cfg u roof_angle roof_contour =
        place_panels_with_orientation cfg u (panel_width_px cfg) (panel_height_px cfg)
          roof_angle roof_contour ∨
      place_panels_optimized cfg u roof_angle roof_contour =
        place_panels_with_orientation cfg u (panel_height_px cfg) (panel_width_px cfg)
          roof_angle roof_contour) ∧
    (place_panels_optimized cfg u roof_angle roof_contour).length =
      max (place_panels_with_orientation cfg u (panel_width_px cfg) (panel_height_px cfg)
          roof_angle roof_contour).length
        (place_panels_with_orientation cfg u (panel_height_px cfg) (panel_width_px cfg)
          roof_angle roof_contour).length ∧
    ((place_panels_with_orientation cfg u (panel_width_px cfg) (panel_height_px cfg)
          roof_angle roof_contour).length =
        (place_panels_with_orientation cfg u (panel_height_px cfg) (panel_width_px cfg)
          roof_angle roof_contour).length →
      place_panels_optimized cfg u roof_angle roof_contour =
        place_panels_with_orientation cfg u (panel_width_px cfg) (panel_height_px cfg)
          roof_angle roof_contour) := by
  simp only [place_panels_optimized]
  split_ifs with h
  · exact ⟨Or.inl rfl, by omega, fun _ => rfl⟩
  · exact ⟨Or.inr rfl, by omega, fun he => absurd (le_of_eq he.symm) h⟩

/-- C6 witness: the pick theorem applied to the empty 0×0 mask, where both
passes yield zero panels — the tie is resolved to the landscape pass. -/
theorem place_panels_optimized_picks_witness :
    place_panels_optimized cfgLoss gridNone 0 [] =
      place_panels_with_orientation cfgLoss gridNone (panel_width_px cfgLoss)
        (panel_height_px cfgLoss) 0 [] :=
  (place_panels_optimized_picks cfgLoss gridNone 0 []).2.2
    (by rw [place_rows_zero cfgLoss gridNone _ _ 0 [] rfl,
      place_rows_zero cfgLoss gridNone _ _ 0 [] rfl])


end SolarRooftop
